import Mathlib

/-!
Verification of the ULID package: a shallow embedding of the Go source
(16-byte identifiers, Crockford Base32 codec, comparison, mutators, and
the monotonic entropy reader), together with theorems settling the
specification claims.  Machine bytes are modelled as `Nat` with explicit
`% 256` where the Go `byte` arithmetic truncates, and `uint64` values as
`Nat` with explicit `% 2 ^ 64`.
-/

namespace Ulid

/-- Error taxonomy of the package (`ErrDataSize`, `ErrInvalidCharacters`,
`ErrBufferSize`, `ErrBigTime`, `ErrOverflow`, `ErrMonotonicOverflow`,
`ErrScanValue`), plus `sourceRead` standing for an I/O error surfaced by
the underlying entropy source. -/
inductive Err where
  | dataSize
  | invalidCharacters
  | bufferSize
  | bigTime
  | overflow
  | monotonicOverflow
  | scanValue
  | sourceRead
  deriving DecidableEq, Repr

/-- `EncodedSize`: length of a text encoded ULID. -/
def EncodedSize : Nat := 26

/-- `RawSize`: length of a binary encoded ULID. -/
def RawSize : Nat := 16

/-- `MaxTime = math.MaxUint64 >> 16 = 2^48 - 1`. -/
def MaxTime : Nat := 2 ^ 48 - 1

/-- The 16-byte ULID value (`type ULID [16]byte`), one field per byte. -/
structure ULID where
  b0 : Nat
  b1 : Nat
  b2 : Nat
  b3 : Nat
  b4 : Nat
  b5 : Nat
  b6 : Nat
  b7 : Nat
  b8 : Nat
  b9 : Nat
  b10 : Nat
  b11 : Nat
  b12 : Nat
  b13 : Nat
  b14 : Nat
  b15 : Nat
  deriving DecidableEq, Repr

/-- The bytes of a ULID in order, most significant first. -/
def ULID.toList (id : ULID) : List Nat :=
  [id.b0, id.b1, id.b2, id.b3, id.b4, id.b5, id.b6, id.b7,
   id.b8, id.b9, id.b10, id.b11, id.b12, id.b13, id.b14, id.b15]

/-- Well-formedness: every byte is in `[0, 256)`. -/
def ULID.Valid (id : ULID) : Prop :=
  id.b0 < 256 ∧ id.b1 < 256 ∧ id.b2 < 256 ∧ id.b3 < 256 ∧
  id.b4 < 256 ∧ id.b5 < 256 ∧ id.b6 < 256 ∧ id.b7 < 256 ∧
  id.b8 < 256 ∧ id.b9 < 256 ∧ id.b10 < 256 ∧ id.b11 < 256 ∧
  id.b12 < 256 ∧ id.b13 < 256 ∧ id.b14 < 256 ∧ id.b15 < 256

instance (id : ULID) : Decidable id.Valid := by
  unfold ULID.Valid; infer_instance

/-- Rebuild a ULID from a list of (at least 16) bytes. -/
def ULID.ofList (l : List Nat) : ULID :=
  ⟨l.getD 0 0, l.getD 1 0, l.getD 2 0, l.getD 3 0, l.getD 4 0, l.getD 5 0,
   l.getD 6 0, l.getD 7 0, l.getD 8 0, l.getD 9 0, l.getD 10 0, l.getD 11 0,
   l.getD 12 0, l.getD 13 0, l.getD 14 0, l.getD 15 0⟩

/-- Crockford Base32 alphabet `enc` as ASCII codes
(`0123456789ABCDEFGHJKMNPQRSTVWXYZ`). -/
def encTable : List Nat :=
  [48, 49, 50, 51, 52, 53, 54, 55, 56, 57,
   65, 66, 67, 68, 69, 70, 71, 72, 74, 75,
   77, 78, 80, 81, 82, 83, 84, 86, 87, 88,
   89, 90]

/-- `enc[x]` lookup. -/
def enc (x : Nat) : Nat := encTable.getD x 0

/-- Reverse table `dec`: ASCII code to base32 value, `0xFF` marking an
invalid character (digits, upper- and lower-case letters excluding
I, L, O, U). -/
def decTable : List Nat :=
  List.replicate 48 255 ++
  [0, 1, 2, 3, 4, 5, 6, 7, 8, 9] ++
  List.replicate 7 255 ++
  [10, 11, 12, 13, 14, 15, 16, 17, 255, 18, 19, 255, 20, 21, 255,
   22, 23, 24, 25, 26, 255, 27, 28, 29, 30, 31] ++
  List.replicate 6 255 ++
  [10, 11, 12, 13, 14, 15, 16, 17, 255, 18, 19, 255, 20, 21, 255,
   22, 23, 24, 25, 26, 255, 27, 28, 29, 30, 31] ++
  List.replicate 133 255

/-- `dec[c]` lookup (out-of-range codes read as invalid). -/
def dec (c : Nat) : Nat := decTable.getD c 255

/-- Go `byte` left shift: `(x << s)` truncated to 8 bits. -/
def shl8 (x s : Nat) : Nat := (x <<< s) % 256

/-- The 26 base32 digit values produced by `MarshalTextTo`, i.e. the
index expressions `(id[i] & mask) >> shift ...` fed to `enc`. -/
def encDigits (id : ULID) : List Nat :=
  [(id.b0 &&& 224) >>> 5,
   id.b0 &&& 31,
   (id.b1 &&& 248) >>> 3,
   ((id.b1 &&& 7) <<< 2) ||| ((id.b2 &&& 192) >>> 6),
   (id.b2 &&& 62) >>> 1,
   ((id.b2 &&& 1) <<< 4) ||| ((id.b3 &&& 240) >>> 4),
   ((id.b3 &&& 15) <<< 1) ||| ((id.b4 &&& 128) >>> 7),
   (id.b4 &&& 124) >>> 2,
   ((id.b4 &&& 3) <<< 3) ||| ((id.b5 &&& 224) >>> 5),
   id.b5 &&& 31,
   (id.b6 &&& 248) >>> 3,
   ((id.b6 &&& 7) <<< 2) ||| ((id.b7 &&& 192) >>> 6),
   (id.b7 &&& 62) >>> 1,
   ((id.b7 &&& 1) <<< 4) ||| ((id.b8 &&& 240) >>> 4),
   ((id.b8 &&& 15) <<< 1) ||| ((id.b9 &&& 128) >>> 7),
   (id.b9 &&& 124) >>> 2,
   ((id.b9 &&& 3) <<< 3) ||| ((id.b10 &&& 224) >>> 5),
   id.b10 &&& 31,
   (id.b11 &&& 248) >>> 3,
   ((id.b11 &&& 7) <<< 2) ||| ((id.b12 &&& 192) >>> 6),
   (id.b12 &&& 62) >>> 1,
   ((id.b12 &&& 1) <<< 4) ||| ((id.b13 &&& 240) >>> 4),
   ((id.b13 &&& 15) <<< 1) ||| ((id.b14 &&& 128) >>> 7),
   (id.b14 &&& 124) >>> 2,
   ((id.b14 &&& 3) <<< 3) ||| ((id.b15 &&& 224) >>> 5),
   id.b15 &&& 31]

/-- `MarshalTextTo`: the 26 ASCII bytes `enc[...]` written to the
destination buffer. -/
def MarshalTextTo (id : ULID) : List Nat := (encDigits id).map enc

/-- The sixteen decode equations of `parse` (`id[0] = dec[v[0]]<<5 | dec[v[1]]`,
etc.), with Go byte truncation on the shifts.  Run unconditionally on the
input, exactly as in the source. -/
def decodeBytes (v : List Nat) : ULID :=
  let d : Nat → Nat := fun i => dec (v.getD i 0)
  { b0 := shl8 (d 0) 5 ||| d 1
    b1 := shl8 (d 2) 3 ||| (d 3 >>> 2)
    b2 := shl8 (d 3) 6 ||| shl8 (d 4) 1 ||| (d 5 >>> 4)
    b3 := shl8 (d 5) 4 ||| (d 6 >>> 1)
    b4 := shl8 (d 6) 7 ||| shl8 (d 7) 2 ||| (d 8 >>> 3)
    b5 := shl8 (d 8) 5 ||| d 9
    b6 := shl8 (d 10) 3 ||| (d 11 >>> 2)
    b7 := shl8 (d 11) 6 ||| shl8 (d 12) 1 ||| (d 13 >>> 4)
    b8 := shl8 (d 13) 4 ||| (d 14 >>> 1)
    b9 := shl8 (d 14) 7 ||| shl8 (d 15) 2 ||| (d 16 >>> 3)
    b10 := shl8 (d 16) 5 ||| d 17
    b11 := shl8 (d 18) 3 ||| (d 19 >>> 2)
    b12 := shl8 (d 19) 6 ||| shl8 (d 20) 1 ||| (d 21 >>> 4)
    b13 := shl8 (d 21) 4 ||| (d 22 >>> 1)
    b14 := shl8 (d 22) 7 ||| shl8 (d 23) 2 ||| (d 24 >>> 3)
    b15 := shl8 (d 24) 5 ||| d 25 }

/-- `parse(v, strict)`: size check, timestamp-character check, overflow
check (`v[0] > '7'`, where `'7' = 55`), the decode equations, and in
strict mode a scan of all 26 characters. -/
def parse (v : List Nat) (strict : Bool) : Except Err ULID :=
  if v.length ≠ EncodedSize then .error .dataSize
  else if dec (v.getD 0 0) = 255 ∨ dec (v.getD 1 0) = 255 ∨
          dec (v.getD 2 0) = 255 ∨ dec (v.getD 3 0) = 255 ∨
          dec (v.getD 4 0) = 255 ∨ dec (v.getD 5 0) = 255 ∨
          dec (v.getD 6 0) = 255 ∨ dec (v.getD 7 0) = 255 ∨
          dec (v.getD 8 0) = 255 ∨ dec (v.getD 9 0) = 255 then
    .error .invalidCharacters
  else if v.getD 0 0 > 55 then .error .overflow
  else if strict ∧ v.any (fun c => dec c = 255) then .error .invalidCharacters
  else .ok (decodeBytes v)

instance {ε α : Type} [DecidableEq ε] [DecidableEq α] :
    DecidableEq (Except ε α) := fun x y =>
  match x, y with
  | .ok a, .ok b =>
    if h : a = b then isTrue (by rw [h]) else isFalse (by simp [h])
  | .error a, .error b =>
    if h : a = b then isTrue (by rw [h]) else isFalse (by simp [h])
  | .ok _, .error _ => isFalse (by simp)
  | .error _, .ok _ => isFalse (by simp)

/-- `Parse`: permissive text decode. -/
def Parse (v : List Nat) : Except Err ULID := parse v false

/-- `ParseStrict`. -/
def ParseStrict (v : List Nat) : Except Err ULID := parse v true

/-- `MarshalBinary` / `MarshalBinaryTo` into a fresh 16-byte buffer:
a plain byte copy. -/
def MarshalBinary (id : ULID) : List Nat := id.toList

/-- `UnmarshalBinary` on a pointer receiver: returns the updated receiver
together with the error, the receiver being untouched on failure. -/
def UnmarshalBinary (id : ULID) (data : List Nat) : ULID × Option Err :=
  if data.length ≠ RawSize then (id, some .dataSize)
  else (ULID.ofList data, none)

/-- `UnmarshalText` on a pointer receiver: parse permissively, assign
only on success. -/
def UnmarshalText (id : ULID) (v : List Nat) : ULID × Option Err :=
  match parse v false with
  | .ok u => (u, none)
  | .error e => (id, some e)

/-- `UnmarshalJSON`: exact length 28 with quote bytes (`'"' = 34`) at
positions 0 and 27, then `UnmarshalText` on the inner 26 bytes. -/
def UnmarshalJSON (id : ULID) (data : List Nat) : ULID × Option Err :=
  if data.length ≠ 28 ∨ data.getD 0 0 ≠ 34 ∨ data.getD 27 0 ≠ 34 then
    (id, some .dataSize)
  else UnmarshalText id ((data.drop 1).take 26)

/-- The dynamic value handed to `Scan`: nil, a string, a byte slice, or
anything else. -/
inductive ScanSrc where
  | nil
  | str (s : List Nat)
  | bytes (b : List Nat)
  | other
  deriving DecidableEq, Repr

/-- `Scan`: nil is a no-op, strings and byte slices go through
`UnmarshalText`, anything else is `ErrScanValue`. -/
def Scan (id : ULID) (src : ScanSrc) : ULID × Option Err :=
  match src with
  | .nil => (id, none)
  | .str s => UnmarshalText id s
  | .bytes b => UnmarshalText id b
  | .other => (id, some .scanValue)

/-- Big-endian value of a byte list (Horner form, general base). -/
def hornerBE (B : Nat) : List Nat → Nat
  | [] => 0
  | d :: ds => d * B ^ ds.length + hornerBE B ds

/-- The whole identifier read as a big-endian 128-bit unsigned integer. -/
def ULID.toNat (id : ULID) : Nat := hornerBE 256 id.toList

/-- The big-endian bytes of a 64-bit value (`binary.BigEndian.PutUint64`). -/
def beBytes8 (x : Nat) : List Nat :=
  [x / 2 ^ 56 % 256, x / 2 ^ 48 % 256, x / 2 ^ 40 % 256, x / 2 ^ 32 % 256,
   x / 2 ^ 24 % 256, x / 2 ^ 16 % 256, x / 2 ^ 8 % 256, x % 256]

/-- `Time()`: `binary.BigEndian.Uint64(id[:8]) >> 16`. -/
def ULID.Time (id : ULID) : Nat :=
  hornerBE 256 [id.b0, id.b1, id.b2, id.b3, id.b4, id.b5, id.b6, id.b7] >>> 16

/-- `Entropy()`: bytes 6..15. -/
def ULID.Entropy (id : ULID) : List Nat :=
  [id.b6, id.b7, id.b8, id.b9, id.b10, id.b11, id.b12, id.b13, id.b14, id.b15]

/-- `SetTime` on a pointer receiver: range check, then
`binary.BigEndian.PutUint64(id[:8], ms<<16)` — note this writes all of
bytes 0..7. -/
def SetTime (id : ULID) (ms : Nat) : ULID × Option Err :=
  if ms > MaxTime then (id, some .bigTime)
  else
    let x := (ms <<< 16) % 2 ^ 64
    ({ id with
        b0 := x / 2 ^ 56 % 256, b1 := x / 2 ^ 48 % 256,
        b2 := x / 2 ^ 40 % 256, b3 := x / 2 ^ 32 % 256,
        b4 := x / 2 ^ 24 % 256, b5 := x / 2 ^ 16 % 256,
        b6 := x / 2 ^ 8 % 256, b7 := x % 256 }, none)

/-- Three-way comparison loop of `Compare`, one byte at a time. -/
def listCompare : List Nat → List Nat → Int
  | [], [] => 0
  | [], _ :: _ => 0
  | _ :: _, [] => 0
  | a :: as, b :: bs =>
    if a < b then -1 else if a > b then 1 else listCompare as bs

/-- `Compare`: byte-wise lexicographic three-way comparison. -/
def Compare (id other : ULID) : Int := listCompare id.toList other.toList

/-- Three-way comparison of naturals, for stating order agreement. -/
def natCompare (m n : Nat) : Int :=
  if m < n then -1 else if m > n then 1 else 0

/-- The byte assembly of `New`: timestamp bytes `byte(ms >> 40) ...
byte(ms)` followed by the 10 entropy bytes. -/
def pack (ms : Nat) (e : List Nat) : ULID :=
  { b0 := (ms >>> 40) % 256, b1 := (ms >>> 32) % 256,
    b2 := (ms >>> 24) % 256, b3 := (ms >>> 16) % 256,
    b4 := (ms >>> 8) % 256, b5 := ms % 256,
    b6 := e.getD 0 0, b7 := e.getD 1 0, b8 := e.getD 2 0,
    b9 := e.getD 3 0, b10 := e.getD 4 0, b11 := e.getD 5 0,
    b12 := e.getD 6 0, b13 := e.getD 7 0, b14 := e.getD 8 0,
    b15 := e.getD 9 0 }

/-- `New(ms, entropy)` with the entropy read already materialised as a
byte list: fails on a too-large timestamp, otherwise packs. -/
def New (ms : Nat) (e : List Nat) : Except Err ULID :=
  if ms > MaxTime then .error .bigTime else .ok (pack ms e)

/-- A well-formed 10-byte entropy payload. -/
def EntropyValid (e : List Nat) : Prop :=
  e.length = 10 ∧ ∀ x ∈ e, x < 256

/-- State of the monotonic entropy source `monoReader`: the pending bytes
of the underlying reader, and the `ms`, `inc`, `rand` fields. -/
structure MonoReader where
  src : List Nat
  ms : Nat
  inc : Nat
  rand : Nat
  deriving DecidableEq, Repr

/-- `binary.Read(r, binary.BigEndian, &u64)`: consume 8 bytes. -/
def readUint64 (src : List Nat) : Except Err (Nat × List Nat) :=
  if src.length < 8 then .error .sourceRead
  else .ok (hornerBE 256 (src.take 8), src.drop 8)

/-- `MonotonicReader(ms, entropy)`: seed `rand` (and `inc`) from an
8-byte big-endian read of the source. -/
def MonotonicReader (ms : Nat) (src : List Nat) : Except Err MonoReader :=
  match readUint64 src with
  | .error e => .error e
  | .ok (r, rest) => .ok { src := rest, ms := ms, inc := r, rand := r }

/-- The tail of `monoReader.Read` after a successful branch:
`binary.BigEndian.PutUint64(p[:8], m.inc)` followed by
`copy(p[:], p[2:10])`. -/
def monoWrite (m : MonoReader) (p : List Nat) :
    MonoReader × List Nat × Option Err :=
  let p1 := beBytes8 m.inc ++ p.drop 8
  (m, p1.drop 2 ++ p1.drop 8, none)

/-- `monoReader.Read(p)`: length guard, reseed branch when `m.ms == 0`,
otherwise increment `m.inc` (64-bit wrap) and fail with
`ErrMonotonicOverflow` when the new value sits below `m.rand` — note the
increment has already been stored when the error returns. -/
def monoRead (m : MonoReader) (p : List Nat) :
    MonoReader × List Nat × Option Err :=
  if p.length ≠ 10 then (m, p, some .dataSize)
  else if m.ms = 0 then
    match readUint64 m.src with
    | .error e => (m, p, some e)
    | .ok (r, rest) => monoWrite { m with src := rest, inc := r, rand := r } p
  else
    let inc' := (m.inc + 1) % 2 ^ 64
    if inc' < m.rand then ({ m with inc := inc' }, p, some .monotonicOverflow)
    else monoWrite { m with inc := inc' } p

/-! ### Arithmetic facts about the bit-level operations -/

set_option maxRecDepth 4000

theorem and224_shr5 : ∀ b < 256, (b &&& 224) >>> 5 = b / 32 := by decide

theorem and31_eq : ∀ b < 256, b &&& 31 = b % 32 := by decide

theorem and248_shr3 : ∀ b < 256, (b &&& 248) >>> 3 = b / 8 := by decide

theorem and7_eq : ∀ b < 256, b &&& 7 = b % 8 := by decide

theorem and192_shr6 : ∀ b < 256, (b &&& 192) >>> 6 = b / 64 := by decide

theorem and62_shr1 : ∀ b < 256, (b &&& 62) >>> 1 = b / 2 % 32 := by decide

theorem and1_eq : ∀ b < 256, b &&& 1 = b % 2 := by decide

theorem and240_shr4 : ∀ b < 256, (b &&& 240) >>> 4 = b / 16 := by decide

theorem and15_eq : ∀ b < 256, b &&& 15 = b % 16 := by decide

theorem and128_shr7 : ∀ b < 256, (b &&& 128) >>> 7 = b / 128 := by decide

theorem and124_shr2 : ∀ b < 256, (b &&& 124) >>> 2 = b / 4 % 32 := by decide

theorem and3_eq : ∀ b < 256, b &&& 3 = b % 4 := by decide

theorem or_shl2 : ∀ x < 8, ∀ y < 4, (x <<< 2) ||| y = x * 4 + y := by decide

theorem or_shl4 : ∀ x < 2, ∀ y < 16, (x <<< 4) ||| y = x * 16 + y := by decide

theorem or_shl1 : ∀ x < 16, ∀ y < 2, (x <<< 1) ||| y = x * 2 + y := by decide

theorem or_shl3 : ∀ x < 4, ∀ y < 8, (x <<< 3) ||| y = x * 8 + y := by decide

theorem shl8_5_small : ∀ x < 8, shl8 x 5 = x * 32 := by decide

theorem shl8_3 : ∀ x < 32, shl8 x 3 = x * 8 := by decide

theorem shl8_6 : ∀ x < 32, shl8 x 6 = x % 4 * 64 := by decide

theorem shl8_1 : ∀ x < 32, shl8 x 1 = x * 2 := by decide

theorem shl8_4 : ∀ x < 32, shl8 x 4 = x % 16 * 16 := by decide

theorem shl8_7 : ∀ x < 32, shl8 x 7 = x % 2 * 128 := by decide

theorem shl8_2 : ∀ x < 32, shl8 x 2 = x * 4 := by decide

theorem shl8_5 : ∀ x < 32, shl8 x 5 = x % 8 * 32 := by decide

theorem or_mul32 : ∀ x < 8, ∀ y < 32, x * 32 ||| y = x * 32 + y := by decide

theorem or_mul8 : ∀ x < 32, ∀ y < 8, x * 8 ||| y = x * 8 + y := by decide

theorem or_mul64 : ∀ x < 4, ∀ y < 32, ∀ z < 2,
    x * 64 ||| y * 2 ||| z = x * 64 + y * 2 + z := by decide

theorem or_mul16 : ∀ x < 16, ∀ y < 16, x * 16 ||| y = x * 16 + y := by decide

theorem or_mul128 : ∀ x < 2, ∀ y < 32, ∀ z < 4,
    x * 128 ||| y * 4 ||| z = x * 128 + y * 4 + z := by decide

theorem dec_enc : ∀ d < 32, dec (enc d) = d := by decide

theorem enc_lt256 : ∀ d < 32, enc d < 256 := by decide

theorem enc_ne_invalid : ∀ d < 32, dec (enc d) ≠ 255 := by decide

theorem enc_le55 : ∀ d < 8, enc d ≤ 55 := by decide

theorem enc_order : ∀ x < 32, ∀ y < 32, (enc x < enc y ↔ x < y) := by decide

theorem dec_lt32_or : ∀ c < 256, dec c = 255 ∨ dec c < 32 := by decide

theorem overflow_char : ∀ c < 256, dec c ≠ 255 → (55 < c ↔ 7 < dec c) := by
  decide

theorem decTable_length : decTable.length = 256 := by decide

theorem dec_lt256_of_valid (c : Nat) (h : dec c ≠ 255) : c < 256 := by
  by_contra hc
  exact h (List.getD_eq_default _ _ (by rw [decTable_length]; omega))

/-! ### The encode digits in div/mod normal form -/

/-- The 26 encode digits rewritten as quotients and remainders of the
bytes; equal to `encDigits` on well-formed identifiers. -/
def normDigits (id : ULID) : List Nat :=
  [id.b0 / 32, id.b0 % 32,
   id.b1 / 8, id.b1 % 8 * 4 + id.b2 / 64, id.b2 / 2 % 32,
   id.b2 % 2 * 16 + id.b3 / 16, id.b3 % 16 * 2 + id.b4 / 128,
   id.b4 / 4 % 32, id.b4 % 4 * 8 + id.b5 / 32, id.b5 % 32,
   id.b6 / 8, id.b6 % 8 * 4 + id.b7 / 64, id.b7 / 2 % 32,
   id.b7 % 2 * 16 + id.b8 / 16, id.b8 % 16 * 2 + id.b9 / 128,
   id.b9 / 4 % 32, id.b9 % 4 * 8 + id.b10 / 32, id.b10 % 32,
   id.b11 / 8, id.b11 % 8 * 4 + id.b12 / 64, id.b12 / 2 % 32,
   id.b12 % 2 * 16 + id.b13 / 16, id.b13 % 16 * 2 + id.b14 / 128,
   id.b14 / 4 % 32, id.b14 % 4 * 8 + id.b15 / 32, id.b15 % 32]

theorem encDigits_norm : ∀ id : ULID, id.Valid → encDigits id = normDigits id := by
  intro id hv
  obtain ⟨h0, h1, h2, h3, h4, h5, h6, h7, h8, h9, h10, h11, h12, h13, h14, h15⟩ := hv
  set b0 := id.b0; set b1 := id.b1; set b2 := id.b2; set b3 := id.b3
  set b4 := id.b4; set b5 := id.b5; set b6 := id.b6; set b7 := id.b7
  set b8 := id.b8; set b9 := id.b9; set b10 := id.b10; set b11 := id.b11
  set b12 := id.b12; set b13 := id.b13; set b14 := id.b14; set b15 := id.b15
  simp only [encDigits, normDigits]
  rw [and224_shr5 _ h0, and31_eq _ h0, and248_shr3 _ h1, and7_eq _ h1,
      and192_shr6 _ h2, and62_shr1 _ h2, and1_eq _ h2, and240_shr4 _ h3,
      and15_eq _ h3, and128_shr7 _ h4, and124_shr2 _ h4, and3_eq _ h4,
      and224_shr5 _ h5, and31_eq _ h5,
      and248_shr3 _ h6, and7_eq _ h6, and192_shr6 _ h7, and62_shr1 _ h7,
      and1_eq _ h7, and240_shr4 _ h8, and15_eq _ h8, and128_shr7 _ h9,
      and124_shr2 _ h9, and3_eq _ h9, and224_shr5 _ h10, and31_eq _ h10,
      and248_shr3 _ h11, and7_eq _ h11, and192_shr6 _ h12, and62_shr1 _ h12,
      and1_eq _ h12, and240_shr4 _ h13, and15_eq _ h13, and128_shr7 _ h14,
      and124_shr2 _ h14, and3_eq _ h14, and224_shr5 _ h15, and31_eq _ h15,
      or_shl2 (b1 % 8) (by omega) (b2 / 64) (by omega),
      or_shl4 (b2 % 2) (by omega) (b3 / 16) (by omega),
      or_shl1 (b3 % 16) (by omega) (b4 / 128) (by omega),
      or_shl3 (b4 % 4) (by omega) (b5 / 32) (by omega),
      or_shl2 (b6 % 8) (by omega) (b7 / 64) (by omega),
      or_shl4 (b7 % 2) (by omega) (b8 / 16) (by omega),
      or_shl1 (b8 % 16) (by omega) (b9 / 128) (by omega),
      or_shl3 (b9 % 4) (by omega) (b10 / 32) (by omega),
      or_shl2 (b11 % 8) (by omega) (b12 / 64) (by omega),
      or_shl4 (b12 % 2) (by omega) (b13 / 16) (by omega),
      or_shl1 (b13 % 16) (by omega) (b14 / 128) (by omega),
      or_shl3 (b14 % 4) (by omega) (b15 / 32) (by omega)]

theorem normDigits_lt : ∀ id : ULID, id.Valid → ∀ x ∈ normDigits id, x < 32 := by
  intro id hv x hx
  obtain ⟨h0, h1, h2, h3, h4, h5, h6, h7, h8, h9, h10, h11, h12, h13, h14, h15⟩ := hv
  simp only [normDigits, List.mem_cons, List.not_mem_nil, or_false] at hx
  rcases hx with rfl | rfl | rfl | rfl | rfl | rfl | rfl | rfl | rfl | rfl |
    rfl | rfl | rfl | rfl | rfl | rfl | rfl | rfl | rfl | rfl | rfl | rfl |
    rfl | rfl | rfl | rfl <;> omega

theorem encDigits_lt (id : ULID) (h : id.Valid) : ∀ x ∈ encDigits id, x < 32 := by
  rw [encDigits_norm id h]; exact normDigits_lt id h

/-! ### Big-endian values, comparison, and lexicographic order -/

theorem hornerBE_lt (B : Nat) (l : List Nat) (h : ∀ x ∈ l, x < B) :
    hornerBE B l < B ^ l.length := by
  induction l with
  | nil => simp [hornerBE]
  | cons a ds ih =>
    have ha : a < B := h a (by simp)
    have hd := ih (fun x hx => h x (by simp [hx]))
    simp only [hornerBE, List.length_cons]
    calc a * B ^ ds.length + hornerBE B ds < a * B ^ ds.length + B ^ ds.length := by
          omega
      _ = (a + 1) * B ^ ds.length := by ring
      _ ≤ B * B ^ ds.length := Nat.mul_le_mul_right _ (by omega)
      _ = B ^ (ds.length + 1) := by ring

theorem natCompare_add_left (k m n : Nat) :
    natCompare (k + m) (k + n) = natCompare m n := by
  simp only [natCompare]
  split_ifs <;> omega

theorem listCompare_eq_natCompare (B : Nat) :
    ∀ l1 l2 : List Nat, l1.length = l2.length → (∀ x ∈ l1, x < B) →
      (∀ x ∈ l2, x < B) →
      listCompare l1 l2 = natCompare (hornerBE B l1) (hornerBE B l2) := by
  intro l1
  induction l1 with
  | nil =>
    intro l2 hlen _ _
    cases l2 with
    | nil => simp [listCompare, hornerBE, natCompare]
    | cons b bs => simp at hlen
  | cons a as ih =>
    intro l2 hlen h1 h2
    cases l2 with
    | nil => simp at hlen
    | cons b bs =>
      have hlen' : as.length = bs.length := by simpa using hlen
      have ha : a < B := h1 a (by simp)
      have hb : b < B := h2 b (by simp)
      have has : hornerBE B as < B ^ bs.length := by
        rw [← hlen']; exact hornerBE_lt B as (fun x hx => h1 x (by simp [hx]))
      have hbs : hornerBE B bs < B ^ bs.length :=
        hornerBE_lt B bs (fun x hx => h2 x (by simp [hx]))
      simp only [listCompare, hornerBE, hlen']
      by_cases hab : a < b
      · have hlt : a * B ^ bs.length + hornerBE B as <
            b * B ^ bs.length + hornerBE B bs := by
          calc a * B ^ bs.length + hornerBE B as <
              a * B ^ bs.length + B ^ bs.length := by omega
            _ = (a + 1) * B ^ bs.length := by ring
            _ ≤ b * B ^ bs.length := Nat.mul_le_mul_right _ (by omega)
            _ ≤ b * B ^ bs.length + hornerBE B bs := Nat.le_add_right _ _
        rw [if_pos hab, natCompare, if_pos hlt]
      · rw [if_neg hab]
        by_cases hba : b < a
        · have hlt : b * B ^ bs.length + hornerBE B bs <
              a * B ^ bs.length + hornerBE B as := by
            calc b * B ^ bs.length + hornerBE B bs <
                b * B ^ bs.length + B ^ bs.length := by omega
              _ = (b + 1) * B ^ bs.length := by ring
              _ ≤ a * B ^ bs.length := Nat.mul_le_mul_right _ (by omega)
              _ ≤ a * B ^ bs.length + hornerBE B as := Nat.le_add_right _ _
          rw [if_pos hba, natCompare, if_neg (by omega), if_pos hlt]
        · have hba' : a = b := by omega
          subst hba'
          rw [if_neg (by omega), natCompare_add_left]
          exact ih bs hlen' (fun x hx => h1 x (by simp [hx]))
            (fun x hx => h2 x (by simp [hx]))

theorem listCompare_map_enc :
    ∀ l1 l2 : List Nat, (∀ x ∈ l1, x < 32) → (∀ x ∈ l2, x < 32) →
      listCompare (l1.map enc) (l2.map enc) = listCompare l1 l2 := by
  intro l1
  induction l1 with
  | nil =>
    intro l2 _ _
    cases l2 <;> simp [listCompare]
  | cons a as ih =>
    intro l2 h1 h2
    cases l2 with
    | nil => simp [listCompare]
    | cons b bs =>
      have ha : a < 32 := h1 a (by simp)
      have hb : b < 32 := h2 b (by simp)
      have hord := enc_order a ha b hb
      have hord' := enc_order b hb a ha
      simp only [List.map, listCompare]
      by_cases hab : a < b
      · rw [if_pos (hord.mpr hab), if_pos hab]
      · rw [if_neg (fun h => hab (hord.mp h)), if_neg hab]
        by_cases hba : b < a
        · rw [if_pos (hord'.mpr hba), if_pos hba]
        · rw [if_neg (fun h => hba (hord'.mp h)), if_neg hba]
          exact ih bs (fun x hx => h1 x (by simp [hx]))
            (fun x hx => h2 x (by simp [hx]))

theorem valid_toList (id : ULID) (h : id.Valid) : ∀ x ∈ id.toList, x < 256 := by
  obtain ⟨h0, h1, h2, h3, h4, h5, h6, h7, h8, h9, h10, h11, h12, h13, h14, h15⟩ := h
  intro x hx
  simp only [ULID.toList, List.mem_cons, List.not_mem_nil, or_false] at hx
  rcases hx with rfl | rfl | rfl | rfl | rfl | rfl | rfl | rfl | rfl | rfl |
    rfl | rfl | rfl | rfl | rfl | rfl <;> assumption

/-- The 26 base32 digits are exactly the base-32 expansion of the
identifier's 128-bit value. -/
theorem hornerBE_encDigits (id : ULID) (h : id.Valid) :
    hornerBE 32 (encDigits id) = id.toNat := by
  obtain ⟨h0, h1, h2, h3, h4, h5, h6, h7, h8, h9, h10, h11, h12, h13, h14, h15⟩ := h
  rw [encDigits_norm id
    ⟨h0, h1, h2, h3, h4, h5, h6, h7, h8, h9, h10, h11, h12, h13, h14, h15⟩]
  simp only [normDigits, ULID.toNat, ULID.toList, hornerBE, List.length_nil,
    List.length_cons]
  norm_num
  omega

theorem compare_eq_natCompare (a b : ULID) (ha : a.Valid) (hb : b.Valid) :
    Compare a b = natCompare a.toNat b.toNat := by
  unfold Compare ULID.toNat
  exact listCompare_eq_natCompare 256 a.toList b.toList
    (by simp [ULID.toList]) (valid_toList a ha) (valid_toList b hb)

theorem textCompare_eq_natCompare (a b : ULID) (ha : a.Valid) (hb : b.Valid) :
    listCompare (MarshalTextTo a) (MarshalTextTo b) =
      natCompare a.toNat b.toNat := by
  unfold MarshalTextTo
  rw [listCompare_map_enc _ _ (encDigits_lt a ha) (encDigits_lt b hb),
      listCompare_eq_natCompare 32 _ _ (by simp [encDigits])
        (encDigits_lt a ha) (encDigits_lt b hb),
      hornerBE_encDigits a ha, hornerBE_encDigits b hb]

theorem exists10 (e : List Nat) (h : e.length = 10) :
    ∃ a0 a1 a2 a3 a4 a5 a6 a7 a8 a9,
      e = [a0, a1, a2, a3, a4, a5, a6, a7, a8, a9] := by
  match e, h with
  | [a0, a1, a2, a3, a4, a5, a6, a7, a8, a9], _ =>
    exact ⟨_, _, _, _, _, _, _, _, _, _, rfl⟩

theorem pack_valid (t : Nat) (e : List Nat) (he : EntropyValid e) :
    (pack t e).Valid := by
  obtain ⟨hlen, hmem⟩ := he
  obtain ⟨a0, a1, a2, a3, a4, a5, a6, a7, a8, a9, rfl⟩ := exists10 e hlen
  have m0 : a0 < 256 := hmem a0 (by simp)
  have m1 : a1 < 256 := hmem a1 (by simp)
  have m2 : a2 < 256 := hmem a2 (by simp)
  have m3 : a3 < 256 := hmem a3 (by simp)
  have m4 : a4 < 256 := hmem a4 (by simp)
  have m5 : a5 < 256 := hmem a5 (by simp)
  have m6 : a6 < 256 := hmem a6 (by simp)
  have m7 : a7 < 256 := hmem a7 (by simp)
  have m8 : a8 < 256 := hmem a8 (by simp)
  have m9 : a9 < 256 := hmem a9 (by simp)
  simp only [pack, ULID.Valid, List.getD_cons_zero, List.getD_cons_succ]
  refine ⟨?_, ?_, ?_, ?_, ?_, ?_, m0, m1, m2, m3, m4, m5, m6, m7, m8, m9⟩ <;>
    omega

theorem toNat_pack (t : Nat) (e : List Nat) (ht : t ≤ MaxTime)
    (he : EntropyValid e) :
    (pack t e).toNat = t * 2 ^ 80 + hornerBE 256 e := by
  obtain ⟨hlen, hmem⟩ := he
  obtain ⟨a0, a1, a2, a3, a4, a5, a6, a7, a8, a9, rfl⟩ := exists10 e hlen
  simp only [MaxTime] at ht
  simp only [pack, ULID.toNat, ULID.toList, hornerBE, List.length_nil,
    List.length_cons, List.getD_cons_zero, List.getD_cons_succ,
    Nat.shiftRight_eq_div_pow]
  norm_num
  omega

theorem entropy_lt (e : List Nat) (he : EntropyValid e) :
    hornerBE 256 e < 2 ^ 80 := by
  have := hornerBE_lt 256 e he.2
  rw [he.1] at this
  calc hornerBE 256 e < 256 ^ 10 := this
    _ = 2 ^ 80 := by norm_num

theorem ULID.ext16 (u1 u2 : ULID) (e0 : u1.b0 = u2.b0) (e1 : u1.b1 = u2.b1)
    (e2 : u1.b2 = u2.b2) (e3 : u1.b3 = u2.b3) (e4 : u1.b4 = u2.b4)
    (e5 : u1.b5 = u2.b5) (e6 : u1.b6 = u2.b6) (e7 : u1.b7 = u2.b7)
    (e8 : u1.b8 = u2.b8) (e9 : u1.b9 = u2.b9) (e10 : u1.b10 = u2.b10)
    (e11 : u1.b11 = u2.b11) (e12 : u1.b12 = u2.b12) (e13 : u1.b13 = u2.b13)
    (e14 : u1.b14 = u2.b14) (e15 : u1.b15 = u2.b15) : u1 = u2 := by
  cases u1; cases u2; simp_all

theorem ofList_toList (u : ULID) : ULID.ofList u.toList = u := by
  apply ULID.ext16 <;> rfl

/-- Decoding the freshly encoded character list recovers every byte. -/
theorem decode_encode (id : ULID) (hv : id.Valid) :
    decodeBytes ((normDigits id).map enc) = id := by
  obtain ⟨h0, h1, h2, h3, h4, h5, h6, h7, h8, h9, h10, h11, h12, h13, h14, h15⟩ := hv
  have g0 : ((normDigits id).map enc).getD 0 0 = enc (id.b0 / 32) := rfl
  have g1 : ((normDigits id).map enc).getD 1 0 = enc (id.b0 % 32) := rfl
  have g2 : ((normDigits id).map enc).getD 2 0 = enc (id.b1 / 8) := rfl
  have g3 : ((normDigits id).map enc).getD 3 0 =
    enc (id.b1 % 8 * 4 + id.b2 / 64) := rfl
  have g4 : ((normDigits id).map enc).getD 4 0 = enc (id.b2 / 2 % 32) := rfl
  have g5 : ((normDigits id).map enc).getD 5 0 =
    enc (id.b2 % 2 * 16 + id.b3 / 16) := rfl
  have g6 : ((normDigits id).map enc).getD 6 0 =
    enc (id.b3 % 16 * 2 + id.b4 / 128) := rfl
  have g7 : ((normDigits id).map enc).getD 7 0 = enc (id.b4 / 4 % 32) := rfl
  have g8 : ((normDigits id).map enc).getD 8 0 =
    enc (id.b4 % 4 * 8 + id.b5 / 32) := rfl
  have g9 : ((normDigits id).map enc).getD 9 0 = enc (id.b5 % 32) := rfl
  have g10 : ((normDigits id).map enc).getD 10 0 = enc (id.b6 / 8) := rfl
  have g11 : ((normDigits id).map enc).getD 11 0 =
    enc (id.b6 % 8 * 4 + id.b7 / 64) := rfl
  have g12 : ((normDigits id).map enc).getD 12 0 = enc (id.b7 / 2 % 32) := rfl
  have g13 : ((normDigits id).map enc).getD 13 0 =
    enc (id.b7 % 2 * 16 + id.b8 / 16) := rfl
  have g14 : ((normDigits id).map enc).getD 14 0 =
    enc (id.b8 % 16 * 2 + id.b9 / 128) := rfl
  have g15 : ((normDigits id).map enc).getD 15 0 = enc (id.b9 / 4 % 32) := rfl
  have g16 : ((normDigits id).map enc).getD 16 0 =
    enc (id.b9 % 4 * 8 + id.b10 / 32) := rfl
  have g17 : ((normDigits id).map enc).getD 17 0 = enc (id.b10 % 32) := rfl
  have g18 : ((normDigits id).map enc).getD 18 0 = enc (id.b11 / 8) := rfl
  have g19 : ((normDigits id).map enc).getD 19 0 =
    enc (id.b11 % 8 * 4 + id.b12 / 64) := rfl
  have g20 : ((normDigits id).map enc).getD 20 0 = enc (id.b12 / 2 % 32) := rfl
  have g21 : ((normDigits id).map enc).getD 21 0 =
    enc (id.b12 % 2 * 16 + id.b13 / 16) := rfl
  have g22 : ((normDigits id).map enc).getD 22 0 =
    enc (id.b13 % 16 * 2 + id.b14 / 128) := rfl
  have g23 : ((normDigits id).map enc).getD 23 0 = enc (id.b14 / 4 % 32) := rfl
  have g24 : ((normDigits id).map enc).getD 24 0 =
    enc (id.b14 % 4 * 8 + id.b15 / 32) := rfl
  have g25 : ((normDigits id).map enc).getD 25 0 = enc (id.b15 % 32) := rfl
  apply ULID.ext16 <;> simp only [decodeBytes] <;>
    simp only [g0, g1, g2, g3, g4, g5, g6, g7, g8, g9, g10, g11, g12, g13,
      g14, g15, g16, g17, g18, g19, g20, g21, g22, g23, g24, g25]
  · rw [dec_enc _ (by omega), dec_enc _ (by omega), shl8_5_small _ (by omega),
      or_mul32 _ (by omega) _ (by omega)]
    omega
  · rw [dec_enc _ (by omega), dec_enc _ (by omega), shl8_3 _ (by omega),
      Nat.shiftRight_eq_div_pow]
    norm_num
    rw [or_mul8 _ (by omega) _ (by omega)]
    omega
  · rw [dec_enc _ (by omega), dec_enc _ (by omega), dec_enc _ (by omega),
      shl8_6 _ (by omega), shl8_1 _ (by omega), Nat.shiftRight_eq_div_pow]
    norm_num
    rw [or_mul64 _ (by omega) _ (by omega) _ (by omega)]
    omega
  · rw [dec_enc _ (by omega), dec_enc _ (by omega), shl8_4 _ (by omega),
      Nat.shiftRight_eq_div_pow]
    norm_num
    rw [or_mul16 _ (by omega) _ (by omega)]
    omega
  · rw [dec_enc _ (by omega), dec_enc _ (by omega), dec_enc _ (by omega),
      shl8_7 _ (by omega), shl8_2 _ (by omega), Nat.shiftRight_eq_div_pow]
    norm_num
    rw [or_mul128 _ (by omega) _ (by omega) _ (by omega)]
    omega
  · rw [dec_enc _ (by omega), dec_enc _ (by omega), shl8_5 _ (by omega),
      or_mul32 _ (by omega) _ (by omega)]
    omega
  · rw [dec_enc _ (by omega), dec_enc _ (by omega), shl8_3 _ (by omega),
      Nat.shiftRight_eq_div_pow]
    norm_num
    rw [or_mul8 _ (by omega) _ (by omega)]
    omega
  · rw [dec_enc _ (by omega), dec_enc _ (by omega), dec_enc _ (by omega),
      shl8_6 _ (by omega), shl8_1 _ (by omega), Nat.shiftRight_eq_div_pow]
    norm_num
    rw [or_mul64 _ (by omega) _ (by omega) _ (by omega)]
    omega
  · rw [dec_enc _ (by omega), dec_enc _ (by omega), shl8_4 _ (by omega),
      Nat.shiftRight_eq_div_pow]
    norm_num
    rw [or_mul16 _ (by omega) _ (by omega)]
    omega
  · rw [dec_enc _ (by omega), dec_enc _ (by omega), dec_enc _ (by omega),
      shl8_7 _ (by omega), shl8_2 _ (by omega), Nat.shiftRight_eq_div_pow]
    norm_num
    rw [or_mul128 _ (by omega) _ (by omega) _ (by omega)]
    omega
  · rw [dec_enc _ (by omega), dec_enc _ (by omega), shl8_5 _ (by omega),
      or_mul32 _ (by omega) _ (by omega)]
    omega
  · rw [dec_enc _ (by omega), dec_enc _ (by omega), shl8_3 _ (by omega),
      Nat.shiftRight_eq_div_pow]
    norm_num
    rw [or_mul8 _ (by omega) _ (by omega)]
    omega
  · rw [dec_enc _ (by omega), dec_enc _ (by omega), dec_enc _ (by omega),
      shl8_6 _ (by omega), shl8_1 _ (by omega), Nat.shiftRight_eq_div_pow]
    norm_num
    rw [or_mul64 _ (by omega) _ (by omega) _ (by omega)]
    omega
  · rw [dec_enc _ (by omega), dec_enc _ (by omega), shl8_4 _ (by omega),
      Nat.shiftRight_eq_div_pow]
    norm_num
    rw [or_mul16 _ (by omega) _ (by omega)]
    omega
  · rw [dec_enc _ (by omega), dec_enc _ (by omega), dec_enc _ (by omega),
      shl8_7 _ (by omega), shl8_2 _ (by omega), Nat.shiftRight_eq_div_pow]
    norm_num
    rw [or_mul128 _ (by omega) _ (by omega) _ (by omega)]
    omega
  · rw [dec_enc _ (by omega), dec_enc _ (by omega), shl8_5 _ (by omega),
      or_mul32 _ (by omega) _ (by omega)]
    omega

theorem marshalTextTo_norm (id : ULID) (hv : id.Valid) :
    MarshalTextTo id = (normDigits id).map enc := by
  rw [MarshalTextTo, encDigits_norm id hv]

/-- A freshly encoded identifier parses back to itself, in both modes. -/
theorem parse_marshal (id : ULID) (hv : id.Valid) (strict : Bool) :
    parse (MarshalTextTo id) strict = .ok id := by
  rw [marshalTextTo_norm id hv]
  have hmem : ∀ x ∈ (normDigits id).map enc, dec x ≠ 255 := by
    intro x hx
    obtain ⟨d, hd, rfl⟩ := List.mem_map.mp hx
    exact enc_ne_invalid d (normDigits_lt id hv d hd)
  have hL : ((normDigits id).map enc).length = 26 := by simp [normDigits]
  have hgd : ∀ i, i < 26 →
      ((normDigits id).map enc).getD i 0 ∈ (normDigits id).map enc := by
    intro i hi
    rw [List.getD_eq_getElem _ _ (by omega)]
    exact List.getElem_mem _
  have hb0 : id.b0 < 256 := hv.1
  have hg0 : ((normDigits id).map enc).getD 0 0 = enc (id.b0 / 32) := rfl
  unfold parse
  rw [if_neg (by simp [hL, EncodedSize]),
      if_neg (by
        rintro (h | h | h | h | h | h | h | h | h | h) <;>
          exact hmem _ (hgd _ (by norm_num)) h),
      if_neg (by
        rw [hg0]
        have := enc_le55 (id.b0 / 32) (by omega)
        omega),
      if_neg (by
        rintro ⟨-, hany⟩
        rw [List.any_eq_true] at hany
        obtain ⟨x, hx, hdx⟩ := hany
        exact hmem x hx (by simpa using hdx))]
  exact congrArg Except.ok (decode_encode id hv)

/-- C1: for every pair of well-formed identifiers, the byte-wise
comparison (`Compare`), the lexicographic comparison of the 26-character
encoded texts (`MarshalTextTo` output), and the comparison of the values
read as big-endian 128-bit unsigned integers all agree; and for `t1 < t2`
and any entropy payloads, the identifier packed from `t1` is strictly
below the one packed from `t2` under both byte-wise and text compare. -/
theorem spec_C1 :
    (∀ a b : ULID, a.Valid → b.Valid →
      Compare a b = natCompare a.toNat b.toNat ∧
      listCompare (MarshalTextTo a) (MarshalTextTo b) =
        natCompare a.toNat b.toNat) ∧
    (∀ t1 t2 : Nat, ∀ e1 e2 : List Nat, t1 < t2 → t2 ≤ MaxTime →
      EntropyValid e1 → EntropyValid e2 →
      Compare (pack t1 e1) (pack t2 e2) = -1 ∧
      listCompare (MarshalTextTo (pack t1 e1))
        (MarshalTextTo (pack t2 e2)) = -1) := by
  constructor
  · intro a b ha hb
    exact ⟨compare_eq_natCompare a b ha hb, textCompare_eq_natCompare a b ha hb⟩
  · intro t1 t2 e1 e2 hlt hle he1 he2
    have hv1 := pack_valid t1 e1 he1
    have hv2 := pack_valid t2 e2 he2
    have hn : (pack t1 e1).toNat < (pack t2 e2).toNat := by
      rw [toNat_pack t1 e1 (by omega) he1, toNat_pack t2 e2 hle he2]
      have hE1 := entropy_lt e1 he1
      have hE2 := entropy_lt e2 he2
      omega
    have hcmp : natCompare (pack t1 e1).toNat (pack t2 e2).toNat = -1 := by
      unfold natCompare
      rw [if_pos hn]
    exact ⟨by rw [compare_eq_natCompare _ _ hv1 hv2, hcmp],
      by rw [textCompare_eq_natCompare _ _ hv1 hv2, hcmp]⟩

/-- Witness for C1 at concrete identifiers and timestamps. -/
theorem spec_C1_witness :
    (Compare ⟨0, 0, 0, 0, 0, 0, 0, 0, 0, 0, 0, 0, 0, 0, 0, 1⟩
        ⟨0, 0, 0, 0, 0, 0, 0, 0, 0, 0, 0, 0, 0, 0, 1, 0⟩ =
      natCompare (ULID.toNat ⟨0, 0, 0, 0, 0, 0, 0, 0, 0, 0, 0, 0, 0, 0, 0, 1⟩)
        (ULID.toNat ⟨0, 0, 0, 0, 0, 0, 0, 0, 0, 0, 0, 0, 0, 0, 1, 0⟩)) ∧
    Compare (pack 3 [0, 0, 0, 0, 0, 0, 0, 0, 0, 0])
      (pack 4 [0, 0, 0, 0, 0, 0, 0, 0, 0, 0]) = -1 := by
  refine ⟨(spec_C1.1 _ _ (by decide) (by decide)).1, ?_⟩
  exact (spec_C1.2 3 4 [0, 0, 0, 0, 0, 0, 0, 0, 0, 0]
    [0, 0, 0, 0, 0, 0, 0, 0, 0, 0] (by decide) (by decide)
    ⟨rfl, by decide⟩ ⟨rfl, by decide⟩).1

/-- C2: for every valid timestamp and 80-bit entropy payload, decoding
the encoding of the packed identifier returns exactly that identifier
without error, for the text form (both parse modes) and the binary
form. -/
theorem spec_C2 :
    ∀ t : Nat, ∀ e : List Nat, t ≤ MaxTime → EntropyValid e →
      Parse (MarshalTextTo (pack t e)) = .ok (pack t e) ∧
      ParseStrict (MarshalTextTo (pack t e)) = .ok (pack t e) ∧
      ∀ id0 : ULID, UnmarshalBinary id0 (MarshalBinary (pack t e)) =
        (pack t e, none) := by
  intro t e ht he
  have hv := pack_valid t e he
  refine ⟨parse_marshal _ hv false, parse_marshal _ hv true, ?_⟩
  intro id0
  unfold UnmarshalBinary MarshalBinary
  rw [if_neg (by simp [ULID.toList, RawSize]), ofList_toList]

/-- Witness for C2 at a concrete timestamp and entropy payload. -/
theorem spec_C2_witness :
    Parse (MarshalTextTo (pack 1 [9, 8, 7, 6, 5, 4, 3, 2, 1, 0])) =
      .ok (pack 1 [9, 8, 7, 6, 5, 4, 3, 2, 1, 0]) ∧
    UnmarshalBinary ⟨1, 1, 1, 1, 1, 1, 1, 1, 1, 1, 1, 1, 1, 1, 1, 1⟩
      (MarshalBinary (pack 1 [9, 8, 7, 6, 5, 4, 3, 2, 1, 0])) =
      (pack 1 [9, 8, 7, 6, 5, 4, 3, 2, 1, 0], none) := by
  have h := spec_C2 1 [9, 8, 7, 6, 5, 4, 3, 2, 1, 0] (by decide)
    ⟨rfl, by decide⟩
  exact ⟨h.1, h.2.2 _⟩

/-- C7: `SetTime` with any timestamp past the 48-bit maximum fails with
`TimeTooLargeError` and returns the receiver with all 16 bytes
unchanged. -/
theorem spec_C7 : ∀ id : ULID, ∀ ms : Nat, MaxTime < ms →
    SetTime id ms = (id, some .bigTime) := by
  intro id ms h
  unfold SetTime
  rw [if_pos h]

/-- Witness for C7: `SetTime` at exactly `2^48` on a concrete identifier. -/
theorem spec_C7_witness :
    SetTime ⟨1, 2, 3, 4, 5, 6, 7, 8, 9, 10, 11, 12, 13, 14, 15, 16⟩ (2 ^ 48) =
      (⟨1, 2, 3, 4, 5, 6, 7, 8, 9, 10, 11, 12, 13, 14, 15, 16⟩,
        some .bigTime) :=
  spec_C7 _ _ (by decide)

/-- C4 evaluated at a failing input: `SetTime 0` on an identifier whose
bytes are all 7 succeeds and makes `Time` report 0, but it also zeroes
bytes 6 and 7 — the first two entropy bytes — because the code writes
`ms << 16` over the whole 8-byte prefix. -/
theorem spec_C4_bug :
    SetTime ⟨7, 7, 7, 7, 7, 7, 7, 7, 7, 7, 7, 7, 7, 7, 7, 7⟩ 0 =
      (⟨0, 0, 0, 0, 0, 0, 0, 0, 7, 7, 7, 7, 7, 7, 7, 7⟩, none) ∧
    ULID.Time ⟨0, 0, 0, 0, 0, 0, 0, 0, 7, 7, 7, 7, 7, 7, 7, 7⟩ = 0 ∧
    ULID.Entropy ⟨0, 0, 0, 0, 0, 0, 0, 0, 7, 7, 7, 7, 7, 7, 7, 7⟩ ≠
      ULID.Entropy ⟨7, 7, 7, 7, 7, 7, 7, 7, 7, 7, 7, 7, 7, 7, 7, 7⟩ := by
  decide

/-- C8: every decode rejects wrong-size input with `DataSizeError`:
text decode on length ≠ 26, binary decode on length ≠ 16, and JSON
decode on length ≠ 28 or missing quote bytes at positions 0 and 27. -/
theorem spec_C8 :
    (∀ v : List Nat, ∀ s : Bool, v.length ≠ 26 →
      parse v s = .error .dataSize) ∧
    (∀ id : ULID, ∀ v : List Nat, v.length ≠ 26 →
      UnmarshalText id v = (id, some .dataSize)) ∧
    (∀ id : ULID, ∀ data : List Nat, data.length ≠ 16 →
      UnmarshalBinary id data = (id, some .dataSize)) ∧
    (∀ id : ULID, ∀ data : List Nat,
      data.length ≠ 28 ∨ data.getD 0 0 ≠ 34 ∨ data.getD 27 0 ≠ 34 →
      UnmarshalJSON id data = (id, some .dataSize)) := by
  have hp : ∀ v : List Nat, ∀ s : Bool, v.length ≠ 26 →
      parse v s = .error .dataSize := by
    intro v s h
    unfold parse
    rw [if_pos (by simpa [EncodedSize] using h)]
  refine ⟨hp, ?_, ?_, ?_⟩
  · intro id v h
    unfold UnmarshalText
    rw [hp v false h]
  · intro id data h
    unfold UnmarshalBinary
    rw [if_pos (by simpa [RawSize] using h)]
  · intro id data h
    unfold UnmarshalJSON
    rw [if_pos h]

/-- Witness for C8 at concrete wrong-size inputs. -/
theorem spec_C8_witness :
    parse [48, 48, 48] true = .error .dataSize ∧
    UnmarshalText ⟨0, 0, 0, 0, 0, 0, 0, 0, 0, 0, 0, 0, 0, 0, 0, 0⟩ [] =
      (⟨0, 0, 0, 0, 0, 0, 0, 0, 0, 0, 0, 0, 0, 0, 0, 0⟩, some .dataSize) ∧
    UnmarshalBinary ⟨0, 0, 0, 0, 0, 0, 0, 0, 0, 0, 0, 0, 0, 0, 0, 0⟩
      [1, 2, 3] =
      (⟨0, 0, 0, 0, 0, 0, 0, 0, 0, 0, 0, 0, 0, 0, 0, 0⟩, some .dataSize) ∧
    UnmarshalJSON ⟨0, 0, 0, 0, 0, 0, 0, 0, 0, 0, 0, 0, 0, 0, 0, 0⟩
      (List.replicate 28 48) =
      (⟨0, 0, 0, 0, 0, 0, 0, 0, 0, 0, 0, 0, 0, 0, 0, 0⟩, some .dataSize) :=
  ⟨spec_C8.1 _ true (by decide), spec_C8.2.1 _ _ (by decide),
   spec_C8.2.2.1 _ _ (by decide), spec_C8.2.2.2 _ _ (by decide)⟩

/-- C9: `UnmarshalText`, `UnmarshalJSON` and `Scan` leave the receiver
unchanged whenever they fail, and `Scan` of a nil value is a no-op
returning no error. -/
theorem spec_C9 :
    (∀ id : ULID, ∀ v : List Nat, ∀ u : ULID, ∀ e : Err,
      UnmarshalText id v = (u, some e) → u = id) ∧
    (∀ id : ULID, ∀ data : List Nat, ∀ u : ULID, ∀ e : Err,
      UnmarshalJSON id data = (u, some e) → u = id) ∧
    (∀ id : ULID, ∀ src : ScanSrc, ∀ u : ULID, ∀ e : Err,
      Scan id src = (u, some e) → u = id) ∧
    (∀ id : ULID, Scan id .nil = (id, none)) := by
  have htext : ∀ id : ULID, ∀ v : List Nat, ∀ u : ULID, ∀ e : Err,
      UnmarshalText id v = (u, some e) → u = id := by
    intro id v u e h
    unfold UnmarshalText at h
    cases hp : parse v false with
    | ok w => rw [hp] at h; simp at h
    | error w => rw [hp] at h; exact (Prod.mk.injEq _ _ _ _ ▸ h).1.symm ▸ rfl
  refine ⟨htext, ?_, ?_, fun id => rfl⟩
  · intro id data u e h
    unfold UnmarshalJSON at h
    split_ifs at h with hc
    · simpa using (Prod.mk.injEq _ _ _ _ ▸ h).1.symm
    · exact htext id _ u e h
  · intro id src u e h
    cases src with
    | nil => simp [Scan] at h
    | str s => exact htext id s u e h
    | bytes b => exact htext id b u e h
    | other => simpa using (Prod.mk.injEq _ _ _ _ ▸ h).1.symm

/-- Witness for C9: a failing `UnmarshalText` leaves a concrete receiver
unchanged, and `Scan` of nil is a no-op on it. -/
theorem spec_C9_witness :
    (⟨9, 9, 9, 9, 9, 9, 9, 9, 9, 9, 9, 9, 9, 9, 9, 9⟩ : ULID) =
      ⟨9, 9, 9, 9, 9, 9, 9, 9, 9, 9, 9, 9, 9, 9, 9, 9⟩ ∧
    Scan ⟨9, 9, 9, 9, 9, 9, 9, 9, 9, 9, 9, 9, 9, 9, 9, 9⟩ .nil =
      (⟨9, 9, 9, 9, 9, 9, 9, 9, 9, 9, 9, 9, 9, 9, 9, 9⟩, none) :=
  ⟨spec_C9.1 _ [1, 2] _ .dataSize (by decide), spec_C9.2.2.2 _⟩

/-- C10: permissive decode is deterministic and, on every input it
accepts, returns exactly the identifier produced by running the decode
equations with the reverse-table sentinel `0xFF` at invalid characters;
on the concrete input with `'!'` at entropy position 11 this is the
fixed pattern with byte 6 equal to `0xF8`. -/
theorem spec_C10 :
    (∀ v : List Nat, ∀ u : ULID, Parse v = .ok u → u = decodeBytes v) ∧
    (∀ v1 v2 : List Nat, v1 = v2 → Parse v1 = Parse v2) ∧
    Parse (List.replicate 10 48 ++ 33 :: List.replicate 15 48) =
      .ok ⟨0, 0, 0, 0, 0, 0, 248, 0, 0, 0, 0, 0, 0, 0, 0, 0⟩ := by
  refine ⟨?_, fun v1 v2 h => by rw [h], by decide⟩
  intro v u h
  unfold Parse parse at h
  split_ifs at h
  simpa using h.symm

/-- Witness for C10: the accepted all-zero text decodes to the zero
identifier, as computed by the decode equations. -/
theorem spec_C10_witness :
    (⟨0, 0, 0, 0, 0, 0, 0, 0, 0, 0, 0, 0, 0, 0, 0, 0⟩ : ULID) =
      decodeBytes (List.replicate 26 48) :=
  spec_C10.1 (List.replicate 26 48) _ (by decide)

theorem first10_ne (v : List Nat)
    (h10 : ∀ i, i < 10 → dec (v.getD i 0) ≠ 255) :
    ¬(dec (v.getD 0 0) = 255 ∨ dec (v.getD 1 0) = 255 ∨
      dec (v.getD 2 0) = 255 ∨ dec (v.getD 3 0) = 255 ∨
      dec (v.getD 4 0) = 255 ∨ dec (v.getD 5 0) = 255 ∨
      dec (v.getD 6 0) = 255 ∨ dec (v.getD 7 0) = 255 ∨
      dec (v.getD 8 0) = 255 ∨ dec (v.getD 9 0) = 255) := by
  rintro (h | h | h | h | h | h | h | h | h | h)
  exacts [h10 0 (by norm_num) h, h10 1 (by norm_num) h, h10 2 (by norm_num) h,
    h10 3 (by norm_num) h, h10 4 (by norm_num) h, h10 5 (by norm_num) h,
    h10 6 (by norm_num) h, h10 7 (by norm_num) h, h10 8 (by norm_num) h,
    h10 9 (by norm_num) h]

/-- C5: with an invalid character only among the 16 entropy positions,
strict decode fails with `InvalidCharacterError` while permissive decode
succeeds; both modes reject an invalid character among the first 10
positions, and both reject a first character decoding above 7 with
`OverflowError`. -/
theorem spec_C5 :
    (∀ v : List Nat, v.length = 26 →
      (∀ i, i < 10 → dec (v.getD i 0) ≠ 255) →
      dec (v.getD 0 0) ≤ 7 →
      (∃ i, i < 26 ∧ 10 ≤ i ∧ dec (v.getD i 0) = 255) →
      ParseStrict v = .error .invalidCharacters ∧
      Parse v = .ok (decodeBytes v)) ∧
    (∀ v : List Nat, ∀ s : Bool, v.length = 26 →
      (∃ i, i < 10 ∧ dec (v.getD i 0) = 255) →
      parse v s = .error .invalidCharacters) ∧
    (∀ v : List Nat, ∀ s : Bool, v.length = 26 →
      (∀ i, i < 10 → dec (v.getD i 0) ≠ 255) →
      7 < dec (v.getD 0 0) →
      parse v s = .error .overflow) := by
  refine ⟨?_, ?_, ?_⟩
  · rintro v hlen h10 h7 ⟨i, hi26, hi10, hdec⟩
    have h255 := h10 0 (by norm_num)
    have hc := dec_lt256_of_valid _ h255
    have hiff := overflow_char _ hc h255
    have hov : ¬(v.getD 0 0 > 55) := by omega
    have hmem : v.getD i 0 ∈ v := by
      rw [List.getD_eq_getElem _ _ (by omega)]
      exact List.getElem_mem _
    have hany : v.any (fun c => dec c = 255) = true :=
      List.any_eq_true.mpr ⟨_, hmem, by simpa using hdec⟩
    constructor
    · unfold ParseStrict parse
      rw [if_neg (by simp [hlen, EncodedSize]), if_neg (first10_ne v h10),
        if_neg hov, if_pos ⟨rfl, hany⟩]
    · unfold Parse parse
      rw [if_neg (by simp [hlen, EncodedSize]), if_neg (first10_ne v h10),
        if_neg hov, if_neg (by simp)]
  · rintro v s hlen ⟨i, hi, hdec⟩
    have hd : dec (v.getD 0 0) = 255 ∨ dec (v.getD 1 0) = 255 ∨
        dec (v.getD 2 0) = 255 ∨ dec (v.getD 3 0) = 255 ∨
        dec (v.getD 4 0) = 255 ∨ dec (v.getD 5 0) = 255 ∨
        dec (v.getD 6 0) = 255 ∨ dec (v.getD 7 0) = 255 ∨
        dec (v.getD 8 0) = 255 ∨ dec (v.getD 9 0) = 255 := by
      interval_cases i <;> tauto
    unfold parse
    rw [if_neg (by simp [hlen, EncodedSize]), if_pos hd]
  · intro v s hlen h10 hdec
    have h255 := h10 0 (by norm_num)
    have hc := dec_lt256_of_valid _ h255
    have hiff := overflow_char _ hc h255
    unfold parse
    rw [if_neg (by simp [hlen, EncodedSize]), if_neg (first10_ne v h10),
      if_pos (by omega)]

/-- Witness for C5 at concrete inputs: `'!'` (code 33) in an entropy
position, `'!'` in the first position, and `'8'` (code 56) first. -/
theorem spec_C5_witness :
    ParseStrict (List.replicate 25 48 ++ [33]) = .error .invalidCharacters ∧
    Parse (List.replicate 25 48 ++ [33]) =
      .ok (decodeBytes (List.replicate 25 48 ++ [33])) ∧
    parse (33 :: List.replicate 25 48) true = .error .invalidCharacters ∧
    parse (56 :: List.replicate 25 48) false = .error .overflow := by
  have h1 := spec_C5.1 (List.replicate 25 48 ++ [33]) (by decide) (by decide)
    (by decide) ⟨25, by norm_num, by norm_num, by decide⟩
  exact ⟨h1.1, h1.2,
    spec_C5.2.1 _ true (by decide) ⟨0, by norm_num, by decide⟩,
    spec_C5.2.2 _ false (by decide) (by decide) (by decide)⟩

/-- C6 counterexample: on a successful increment-branch read with
counter `0x0102030405060708` into a zeroed buffer, the last 8 of the 10
requested bytes are `[5,6,7,8,0,0,0,0]`, not the counter's low 8 bytes
`[1,2,3,4,5,6,7,8]` — the copy shifts the counter bytes to the front of
the buffer instead. -/
theorem spec_C6_counterexample :
    (monoRead ⟨[], 1, 72623859790382855, 0⟩ (List.replicate 10 0)).2.2 =
      none ∧
    ¬((monoRead ⟨[], 1, 72623859790382855, 0⟩
          (List.replicate 10 0)).2.1.drop 2 =
        beBytes8 (monoRead ⟨[], 1, 72623859790382855, 0⟩
          (List.replicate 10 0)).1.inc) := by
  decide

/-- C6 amended: on each successful increment-branch read the two
highest-order bytes of the 8-byte counter are dropped and its low 6
bytes are placed in the FIRST 6 of the 10 requested bytes; positions 6
and 7 receive the prior contents of buffer positions 8 and 9, which
themselves stay in place. -/
theorem spec_C6_amended :
    ∀ m : MonoReader, ∀ p : List Nat, p.length = 10 → m.ms ≠ 0 →
      m.rand ≤ (m.inc + 1) % 2 ^ 64 →
      monoRead m p =
        ({ m with inc := (m.inc + 1) % 2 ^ 64 },
          (beBytes8 ((m.inc + 1) % 2 ^ 64)).drop 2 ++ p.drop 8 ++ p.drop 8,
          none) := by
  intro m p hlen hms hle
  simp only [monoRead]
  rw [if_neg (by omega), if_neg hms, if_neg (by omega)]
  simp only [monoWrite, beBytes8]
  simp [List.drop_succ_cons]

/-- Witness for C6's amended statement at a concrete state and buffer. -/
theorem spec_C6_amended_witness :
    monoRead ⟨[], 1, 10, 5⟩ [0, 0, 0, 0, 0, 0, 0, 0, 7, 9] =
      (⟨[], 1, 11, 5⟩, [0, 0, 0, 0, 0, 11, 7, 9, 7, 9], none) :=
  (spec_C6_amended ⟨[], 1, 10, 5⟩ [0, 0, 0, 0, 0, 0, 0, 0, 7, 9]
    (by decide) (by decide) (by decide)).trans (by decide)

/-- C3 evaluated at failing inputs: a generator seeded once with
`2^48 - 2` yields two consecutive successful reads whose 80-bit entropy
values strictly DECREASE (the counter's low 6 bytes sit in the top
entropy positions and wrap at the `2^48` boundary), and an overflow read
fails with `MonotonicOverflowError` but mutates the stored counter. -/
theorem spec_C3_bug :
    MonotonicReader 1 [0, 0, 255, 255, 255, 255, 255, 254] =
      .ok ⟨[], 1, 2 ^ 48 - 2, 2 ^ 48 - 2⟩ ∧
    monoRead ⟨[], 1, 2 ^ 48 - 2, 2 ^ 48 - 2⟩ (List.replicate 10 0) =
      (⟨[], 1, 2 ^ 48 - 1, 2 ^ 48 - 2⟩,
        [255, 255, 255, 255, 255, 255, 0, 0, 0, 0], none) ∧
    monoRead ⟨[], 1, 2 ^ 48 - 1, 2 ^ 48 - 2⟩
        [255, 255, 255, 255, 255, 255, 0, 0, 0, 0] =
      (⟨[], 1, 2 ^ 48, 2 ^ 48 - 2⟩, List.replicate 10 0, none) ∧
    hornerBE 256 (List.replicate 10 0) <
      hornerBE 256 [255, 255, 255, 255, 255, 255, 0, 0, 0, 0] ∧
    monoRead ⟨[], 1, 2 ^ 64 - 1, 5⟩ (List.replicate 10 0) =
      (⟨[], 1, 0, 5⟩, List.replicate 10 0, some .monotonicOverflow) := by
  decide

end Ulid
